import Mathlib

/-!
Shallow embedding of the earth-data-fetcher temporal fetch-and-cache engine
(src/earth_data_fetcher/{download_https,download_xarray,utils}.py).

Timestamps are modelled as integers counting hours since 2000-01-01 00:00
(pandas Timestamps at hour resolution suffice for every property considered);
`oneDay` is pandas Timedelta("1D") in those units.  Python strings are Lean
strings; template rendering (str.format with the `t` placeholder and the
merged top-level/metadata kwargs, which are fixed per downloader instance) is
modelled as a function from timestamps to rendered strings, kept alongside
the raw template string.  The remote filesystem (fsspec) is an external
collaborator and enters as a record of its two operations used by the code
(glob and exists).
-/

/-- Error taxonomy of the spec (section 7).  The Python code raises
ValueError / AssertionError / TypeError for construction- and
configuration-time failures, which the spec groups as ConfigurationError; the
ValueError raised when the cadence probe window is exhausted is the spec
taxonomy item DataNotFoundError; transfer failures are RemoteFetchError. -/
inductive Err where
  | ConfigurationError (msg : String) : Err
  | DataNotFoundError (msg : String) : Err
  | RemoteFetchError (msg : String) : Err
deriving DecidableEq

deriving instance DecidableEq for Except

/-- Whether an Except value is a success (Python: no exception raised). -/
def exceptIsOk {α : Type} : Except Err α → Bool
  | .ok _ => true
  | .error _ => false

/-- Substring containment on char lists, Python `sub in s`. -/
def listContainsSub (sub : List Char) : List Char → Bool
  | [] => sub.isEmpty
  | c :: rest => sub.isPrefixOf (c :: rest) || listContainsSub sub rest

/-- Python `sub in s` on strings. -/
def containsSub (s sub : String) : Bool := listContainsSub sub.toList s.toList

/-- Python str.replace: replace every non-overlapping occurrence of `pat`,
scanning left to right.  Fuel-driven recursion; the fuel is the length of the
scanned list, which bounds the number of steps taken. -/
def replaceAllAux (pat rep : List Char) : Nat → List Char → List Char
  | 0, cs => cs
  | _ + 1, [] => []
  | fuel + 1, c :: cs =>
    if pat.isPrefixOf (c :: cs) && !pat.isEmpty then
      rep ++ replaceAllAux pat rep fuel (List.drop (pat.length - 1) cs)
    else
      c :: replaceAllAux pat rep fuel cs

/-- Python `s.replace(pat, rep)`. -/
def strReplace (s pat rep : String) : String :=
  String.mk (replaceAllAux pat.toList rep.toList s.toList.length s.toList)

/-- pd.date_range(start := t0, end := t1, freq := step): the timestamps
t0, t0 + step, t0 + 2 step, ... while they stay at most t1.  Fuel-driven;
for step at least 1 the fuel (t1 - t0).toNat + 1 is always enough. -/
def dateRangeAux (step t1 : Int) : Nat → Int → List Int
  | 0, _ => []
  | n + 1, t => if t ≤ t1 then t :: dateRangeAux step t1 n (t + step) else []

/-- pd.date_range from t0 to t1 (inclusive when aligned) with stride step. -/
def dateRange (t0 t1 step : Int) : List Int :=
  dateRangeAux step t1 ((t1 - t0).toNat + 1) t0

/-- pandas Timedelta("1D") in model units (hours). -/
def oneDay : Int := 24

/-- The remote-filesystem collaborator (fsspec.AbstractFileSystem): the two
operations the code uses are glob-style pattern expansion and a single-path
existence check (spec section 6). -/
structure RemoteFS where
  glob : String → List String
  fsExists : String → Bool

/-- The `time` sub-mapping of a source descriptor; `freq` is
pd.to_timedelta(time.freq) (none models a missing `freq` key). -/
structure TimeProps where
  freq : Option Int

/-- A source descriptor (the **config / **kwargs mapping handed to the
downloader constructors).  `hasUrl` / `hasStorageOptions` model key presence
(a present `storage_options` is also non-empty here: none of the verified
properties distinguishes a missing key from an empty mapping, and the code
rejects both).  `cacheRaw` is the raw storage_options.cache_storage template
string ("" models a missing key, exactly as `.get('cache_storage', '')`
does); `cacheRender` is its str.format with a timestamp and the merged
kwargs; `renderUrl` is str.format of the url template likewise. -/
structure Config where
  hasUrl : Bool
  url : String
  renderUrl : Int → String
  hasStorageOptions : Bool
  cacheRaw : String
  cacheRender : Int → String
  time : Option TimeProps
  varNames : List String

/-- The DownloaderFsspec instance state after __init__ (all fields are the
immutable kwargs; the class has no other mutable state). -/
structure FsspecD where
  url : String
  renderUrl : Int → String
  storageOptions : Bool
  cacheRender : Int → String
  time : Option TimeProps

/-! The regex `(^filecache::)(http|https|ftp|sftp)+://.*({t:.*}).*`, used with
re.match (anchored at the start, a prefix match suffices since the trailing
`.*` matches the empty string), is implemented as an explicit backtracking
prefix matcher over char lists.  `.` does not match a newline. -/

/-- The literal chars of "filecache::". -/
def fcChars : List Char := "filecache::".toList

/-- The literal chars of "://". -/
def sepChars : List Char := "://".toList

/-- The literal chars of the opening of the time placeholder. -/
def tChars : List Char := "\x7bt:".toList

/-- The protocol alternatives of the regex. -/
def protoTokens : List (List Char) :=
  ["http".toList, "https".toList, "ftp".toList, "sftp".toList]

/-- The regex fragment `.*}` as a prefix matcher: a literal close brace with
only non-newline characters before it. -/
def hasCloseBrace : List Char → Bool
  | [] => false
  | c :: cs => c == '\x7d' || (c != '\n' && hasCloseBrace cs)

/-- The regex fragment `.*{t:.*}` as a prefix matcher. -/
def findTimePlaceholder : List Char → Bool
  | [] => false
  | c :: cs =>
    (tChars.isPrefixOf (c :: cs) && hasCloseBrace (List.drop (tChars.length - 1) cs))
    || (c != '\n' && findTimePlaceholder cs)

/-- The regex fragment `://.*{t:.*}` as a prefix matcher. -/
def afterProtocol (cs : List Char) : Bool :=
  sepChars.isPrefixOf cs && findTimePlaceholder (List.drop sepChars.length cs)

/-- The regex fragment `(http|https|ftp|sftp)+://.*{t:.*}` as a prefix
matcher, trying every parse of the repeated protocol group (fuel bounds the
recursion; each step consumes a non-empty token). -/
def protoPlusThen : Nat → List Char → Bool
  | 0, _ => false
  | fuel + 1, cs =>
    protoTokens.any (fun tok =>
      tok.isPrefixOf cs &&
        (afterProtocol (List.drop tok.length cs) || protoPlusThen fuel (List.drop tok.length cs)))

/-- re.match of `(^filecache::)(http|https|ftp|sftp)+://.*({t:.*}).*`
(DownloaderFsspec._check_url_valid); the same test as re.match of the
unanchored variant used by make_downloader, since re.match anchors at the
start. -/
def urlPatternMatch (url : String) : Bool :=
  fcChars.isPrefixOf url.toList &&
    protoPlusThen url.toList.length (List.drop fcChars.length url.toList)

/-- DownloaderFsspec._check_url_valid: the url must be a non-empty string
matching the filecache grammar (source raises AssertionError, spec taxonomy
ConfigurationError). -/
def checkUrlValid (url : String) : Except Err Unit :=
  if url = "" then
    .error (.ConfigurationError "url must be defined in the kwargs")
  else if urlPatternMatch url then .ok ()
  else
    .error (.ConfigurationError
      "url must have the format filecache::[protocol]://[path that contains \x7bt:...\x7d]")

/-- DownloaderFsspec.__init__: stores the kwargs, obtains the filesystem (an
external collaborator, a parameter of the operations below) and validates the
url.  No check of the cache-storage template happens here. -/
def mkDownloaderFsspec (cfg : Config) : Except Err FsspecD :=
  match checkUrlValid cfg.url with
  | .error e => .error e
  | .ok _ =>
    .ok { url := cfg.url, renderUrl := cfg.renderUrl,
          storageOptions := cfg.hasStorageOptions,
          cacheRender := cfg.cacheRender, time := cfg.time }

/-- DownloaderFsspec._get_remote_path_if_exists: wildcard urls are expanded
with glob and the first match taken (none when the expansion is empty);
otherwise with force_check an explicit existence probe decides; otherwise the
path is assumed present.  A present path is returned with the given prefix
prepended. -/
def getRemotePathIfExists (fs : RemoteFS) (url : String) (pfx : String)
    (forceCheck : Bool) : Option String :=
  if url.toList.contains '*' then
    match fs.glob url with
    | [] => none
    | f :: _ => some (pfx ++ f)
  else if forceCheck then
    if fs.fsExists url then some (pfx ++ url) else none
  else
    some (pfx ++ url)

/-- DownloaderFsspec._make_path: renders the remote path (str.format of the
url template, then stripping "filecache::"), resolves its existence, and
renders the local path from storage_options.cache_storage; a missing
storage_options or an empty rendered local path raises (ValueError, spec
taxonomy ConfigurationError). -/
def FsspecD.makePath (d : FsspecD) (fs : RemoteFS) (t : Int) (checkExists : Bool) :
    Except Err (Option String × String) :=
  let remote0 := strReplace (d.renderUrl t) "filecache::" ""
  let remote := getRemotePathIfExists fs remote0 "filecache::" checkExists
  if d.storageOptions = false then
    .error (.ConfigurationError "storage_options must be defined in the kwargs")
  else
    let lp := d.cacheRender t
    if lp = "" then
      .error (.ConfigurationError "storage_options.cache_storage must be defined in the kwargs")
    else
      .ok (remote, lp)

/-- The loop body of DownloaderFsspec._get_t0_for_strided_dates: walk the
probe days in order, return the first whose remote reference resolves under a
forced existence check; raise when the list is exhausted (source: ValueError
with the interpolated bounds, spec taxonomy DataNotFoundError). -/
def probeFirst (d : FsspecD) (fs : RemoteFS) : List Int → Except Err Int
  | [] => .error (.DataNotFoundError "No data found between t0 and t0 + dt")
  | t :: ts =>
    match d.makePath fs t true with
    | .error e => .error e
    | .ok (some _, _) => .ok t
    | .ok (none, _) => probeFirst d fs ts

/-- DownloaderFsspec._get_t0_for_strided_dates: probe every calendar day in
[t0, t0 + 2 * freq] in ascending order with forced existence checks and
return the first that resolves. -/
def FsspecD.getT0ForStridedDates (d : FsspecD) (fs : RemoteFS) (t0 : Int) :
    Except Err Int :=
  match d.time with
  | none => .error (.ConfigurationError "time must be defined in the kwargs")
  | some tp =>
    match tp.freq with
    | none => .error (.ConfigurationError "time.freq must be defined in the kwargs")
    | some fr =>
      probeFirst d fs (dateRange t0 (t0 + fr * 2) oneDay)

/-- DownloaderFsspec._make_times_strided: sub-daily frequencies are rejected;
a 1-day frequency enumerates the request bounds as-is; a coarser frequency
first phase-aligns the start by probing and then enumerates with stride freq.
(The source raises TypeError when the `time` key is missing and ValueError
when `freq` is; both are configuration failures and share the taxonomy
constructor here.) -/
def FsspecD.makeTimesStrided (d : FsspecD) (fs : RemoteFS) (t0 t1 : Int) :
    Except Err (List Int) :=
  match d.time with
  | none => .error (.ConfigurationError "time.freq must be defined in the kwargs")
  | some tp =>
    match tp.freq with
    | none => .error (.ConfigurationError "time.freq must be defined in the kwargs")
    | some fr =>
      if fr < oneDay then
        .error (.ConfigurationError "time.freq must be at least 1 day")
      else if fr = oneDay then .ok (dateRange t0 t1 oneDay)
      else
        match d.getT0ForStridedDates fs t0 with
        | .error e => .error e
        | .ok t0n => .ok (dateRange t0n t1 fr)

/-- The accumulation step of the batch dict: Python's insertion-ordered
defaultdict(tuple) with `batch[local] = batch[local] + (remote,)`. -/
def batchInsert : List (String × List String) → String → String →
    List (String × List String)
  | [], lp, r => [(lp, [r])]
  | (k, v) :: rest, lp, r =>
    if k = lp then (k, v ++ [r]) :: rest else (k, v) :: batchInsert rest lp r

/-- The grouping loop of DownloaderFsspec._make_batch: resolve each timestamp
(no forced existence check), silently drop the absent ones, and append the
present remote references under their rendered local path. -/
def batchLoop (d : FsspecD) (fs : RemoteFS) :
    List Int → List (String × List String) → Except Err (List (String × List String))
  | [], acc => .ok acc
  | t :: ts, acc =>
    match d.makePath fs t false with
    | .error e => .error e
    | .ok (some r, lp) => batchLoop d fs ts (batchInsert acc lp r)
    | .ok (none, _) => batchLoop d fs ts acc

/-- The grouping part of DownloaderFsspec._make_batch applied to an already
enumerated list of timestamps. -/
def FsspecD.batchOfTimes (d : FsspecD) (fs : RemoteFS) (ts : List Int) :
    Except Err (List (String × List String)) :=
  batchLoop d fs ts []

/-- DownloaderFsspec._make_batch: only the first and last element of the
normalized times are consulted (`times[0]`, `times[-1]`); the closed range
between them is re-enumerated at the detected cadence and grouped.  (Python
raises IndexError on an empty list; the headD/getLastD defaults are never
reached under the non-emptiness hypotheses of the theorems below.) -/
def FsspecD.makeBatch (d : FsspecD) (fs : RemoteFS) (times : List Int) :
    Except Err (List (String × List String)) :=
  match d.makeTimesStrided fs (times.headD 0) (times.getLastD 0) with
  | .error e => .error e
  | .ok strided => d.batchOfTimes fs strided

/-- The local file name fsspec's filecache layer gives a remote reference:
the destination directory joined with the reference's basename
(same_names := True is the default the source sets). -/
def openLocalName (cache u : String) : String :=
  cache ++ "/" ++ String.mk ((u.toList.reverse.takeWhile (fun c => c != '/')).reverse)

/-- Models the external caching remote-filesystem collaborator
(fsspec.open_local over the filecache protocol, spec sections 4.5 and 6):
every remote reference is materialized under the destination directory with
its basename; a reference whose local copy already exists is skipped
per-file (no transfer).  Returns the disk after the call, the local paths in
request order, and the number of transfers performed. -/
def openLocalModel (cache : String) : List String → List String →
    List String × List String × Nat
  | disk, [] => (disk, [], 0)
  | disk, u :: us =>
    let p := openLocalName cache u
    if disk.contains p then
      let r := openLocalModel cache disk us
      (r.1, p :: r.2.1, r.2.2)
    else
      let r := openLocalModel cache (p :: disk) us
      (r.1, p :: r.2.1, r.2.2 + 1)

/-- The per-group loop of DownloaderFsspec._download_batches: each local
destination in batch order has its remote references fetched via the caching
collaborator; the resulting local paths are concatenated. -/
def downloadBatchesLoop : List String → List (String × List String) →
    List String × List String × Nat
  | disk, [] => (disk, [], 0)
  | disk, (lp, urls) :: rest =>
    let r := openLocalModel lp disk urls
    let r2 := downloadBatchesLoop r.1 rest
    (r2.1, r.2.1 ++ r2.2.1, r.2.2 + r2.2.2)

/-- DownloaderFsspec._download_batches: requires storage_options, then runs
every group through the caching collaborator. -/
def FsspecD.downloadBatches (d : FsspecD) (disk : List String)
    (batch : List (String × List String)) :
    Except Err (List String × List String × Nat) :=
  if d.storageOptions = false then
    .error (.ConfigurationError "storage_options must be defined in the kwargs")
  else
    .ok (downloadBatchesLoop disk batch)

/-- DownloaderFsspec.download: build the batch, then fetch it. -/
def FsspecD.download (d : FsspecD) (fs : RemoteFS) (disk : List String)
    (times : List Int) : Except Err (List String × List String × Nat) :=
  match d.makeBatch fs times with
  | .error e => .error e
  | .ok b => d.downloadBatches disk b

/-- DownloaderXarray._check_cache_storage_path_valid: requires
storage_options, a non-empty cache_storage string containing the time
placeholder, and that the nine consecutive days 2000-01-01 .. 2000-01-09
render to nine distinct strings (Python: a set comprehension compared in
size against the date list; the source raises ValueError / AssertionError,
spec taxonomy ConfigurationError). -/
def nineDays : List Int := dateRange 0 (8 * oneDay) oneDay

/-- The construction-time validation of DownloaderXarray (see nineDays). -/
def checkCacheStoragePathValid (cfg : Config) : Except Err Unit :=
  if cfg.hasStorageOptions = false then
    .error (.ConfigurationError "storage_options must be defined in the kwargs")
  else if cfg.cacheRaw = "" then
    .error (.ConfigurationError "storage_options.cache_storage must be defined in the kwargs")
  else if containsSub cfg.cacheRaw "\x7bt:" = false then
    .error (.ConfigurationError "storage_options.cache_storage must contain \x7bt:...\x7d")
  else if ((nineDays.map cfg.cacheRender).dedup.length = nineDays.length) then
    .ok ()
  else
    .error (.ConfigurationError
      "storage_options.cache_storage must return a unique file for each day")

/-- The tag of the data_opener passed by make_downloader (pydap_opener for
thredds catalogs, cmems_opener for CMEMS dataset ids). -/
inductive OpenerKind where
  | pydap
  | cmems
deriving DecidableEq

/-- The DownloaderXarray instance after __init__ (data_opener plus the
immutable kwargs; the lazily opened dataset handle and _previous_fname are
run-time state and live in XState below). -/
structure XarrayD where
  opener : OpenerKind
  url : String
  hasStorageOptions : Bool
  cacheRender : Int → String
  varNames : List String

/-- DownloaderXarray.__init__: stores the opener and kwargs and validates the
cache storage template (construction fails exactly when that check does). -/
def mkDownloaderXarray (ok : OpenerKind) (cfg : Config) : Except Err XarrayD :=
  match checkCacheStoragePathValid cfg with
  | .error e => .error e
  | .ok _ =>
    .ok { opener := ok, url := cfg.url, hasStorageOptions := cfg.hasStorageOptions,
          cacheRender := cfg.cacheRender, varNames := cfg.varNames }

/-- The mutable run-time state of one DownloaderXarray instance together
with the local disk: the set of existing local files, the _previous_fname
attribute, and the count of slice materializations performed (compute +
to_netcdf), the "remote transfer" counter of spec section 8. -/
structure XState where
  disk : List String
  prev : String
  writes : Nat
deriving DecidableEq

/-- Nearest-neighbour selection along the time axis:
ds.sel(time=[t], method := "nearest") over a monotonically increasing axis
picks the sample minimizing the absolute distance to t (pandas breaks exact
ties towards the later sample; none of the verified properties exercises a
tie).  none on an empty axis (xarray would fail). -/
def selNearest (t : Int) : List Int → Option Int
  | [] => none
  | x :: xs =>
    some (xs.foldl (fun best y =>
      if (y - t).natAbs ≤ (best - t).natAbs then y else best) x)

/-- DownloaderXarray._download_single_timestep, with the time axis of the
lazily opened dataset (an external collaborator: data_opener(url) restricted
to the declared variables) passed explicitly.  Faithful to the source order:
self._previous_fname is reset to the EMPTY STRING at the start of every
call; then the data property asserts the variable list non-empty (first
access; the assert fires identically on every access since the kwargs are
immutable); then the nearest sample is selected and the local path rendered
from the ACTUAL selected timestamp; the file is skipped when it exists and
differs from _previous_fname (a pathlib.Path never equals the string
just assigned, modelled by string inequality against ""), otherwise the
slice is computed and serialized. -/
def XarrayD.downloadSingleTimestep (d : XarrayD) (axis : List Int) (st : XState)
    (t : Int) : Except Err (XState × String) :=
  let st1 : XState := { st with prev := "" }
  if d.varNames.isEmpty then
    .error (.ConfigurationError "variables must be defined in config")
  else
    match selNearest t axis with
    | none => .error (.RemoteFetchError "dataset has an empty time axis")
    | some tOut =>
      if d.hasStorageOptions = false then
        .error (.ConfigurationError "storage_options must be defined in the kwargs")
      else
        let fname := d.cacheRender tOut
        if fname = "" then
          .error (.ConfigurationError
            "storage_options.cache_storage must be defined in the kwargs")
        else
          if st1.disk.contains fname && fname != st1.prev then
            .ok ({ st1 with prev := fname }, fname)
          else
            .ok ({ disk := fname :: st1.disk, prev := fname,
                   writes := st1.writes + 1 }, fname)

/-- DownloaderXarray.download restricted to the normalized list form: one
_download_single_timestep per requested timestamp, collecting the returned
paths in request order. -/
def XarrayD.download (d : XarrayD) (axis : List Int) :
    XState → List Int → Except Err (XState × List String)
  | st, [] => .ok (st, [])
  | st, t :: ts =>
    match d.downloadSingleTimestep axis st t with
    | .error e => .error e
    | .ok (st1, f) =>
      match d.download axis st1 ts with
      | .error e => .error e
      | .ok (st2, fl) => .ok (st2, f :: fl)

/-- The result of make_downloader: which class was constructed, with which
opener in the DownloaderXarray case. -/
inductive Downloader where
  | fsspec (d : FsspecD)
  | xarray (ok : OpenerKind) (d : XarrayD)

/-- utils.make_downloader: require the url and storage_options keys, then
dispatch on the url in priority order (filecache grammar, then the thredds
marker, then no path separator = CMEMS dataset id); no match raises
(TypeError, spec taxonomy ConfigurationError). -/
def make_downloader (cfg : Config) : Except Err Downloader :=
  if cfg.hasUrl = false then
    .error (.ConfigurationError "config must contain the key url")
  else if cfg.hasStorageOptions = false then
    .error (.ConfigurationError "config must contain the key storage_options")
  else
    let isFsspecCompatible := urlPatternMatch cfg.url
    let isThreddsCompatible := containsSub cfg.url "thredds"
    let isCmemsDataset := !(cfg.url.toList.contains '/')
    if isFsspecCompatible then
      match mkDownloaderFsspec cfg with
      | .error e => .error e
      | .ok d => .ok (.fsspec d)
    else if isThreddsCompatible || isCmemsDataset then
      if isThreddsCompatible then
        match mkDownloaderXarray .pydap cfg with
        | .error e => .error e
        | .ok d => .ok (.xarray .pydap d)
      else if isCmemsDataset then
        match mkDownloaderXarray .cmems cfg with
        | .error e => .error e
        | .ok d => .ok (.xarray .cmems d)
      else
        .error (.ConfigurationError "An impossible situation has occured")
    else
      .error (.ConfigurationError "URL is not compatible with any known downloader")

/-- Every element of a fuel-driven date range is at least the running start. -/
lemma dateRangeAux_mem_ge (step t1 : Int) (hs : 0 < step) :
    ∀ (n : Nat) (t x : Int), x ∈ dateRangeAux step t1 n t → t ≤ x := by
  intro n
  induction n with
  | zero => intro t x hx; simp [dateRangeAux] at hx
  | succ n ih =>
    intro t x hx
    simp only [dateRangeAux] at hx
    by_cases h : t ≤ t1
    · rw [if_pos h] at hx
      rcases List.mem_cons.mp hx with rfl | hx'
      · exact le_refl x
      · have := ih (t + step) x hx'
        omega
    · rw [if_neg h] at hx
      simp at hx

/-- A date range with positive stride is strictly increasing. -/
lemma dateRangeAux_pairwise (step t1 : Int) (hs : 0 < step) :
    ∀ (n : Nat) (t : Int), (dateRangeAux step t1 n t).Pairwise (· < ·) := by
  intro n
  induction n with
  | zero => intro t; simp [dateRangeAux]
  | succ n ih =>
    intro t
    simp only [dateRangeAux]
    by_cases h : t ≤ t1
    · rw [if_pos h]
      refine List.Pairwise.cons ?_ (ih (t + step))
      intro x hx
      have := dateRangeAux_mem_ge step t1 hs n (t + step) x hx
      omega
    · rw [if_neg h]
      exact List.Pairwise.nil

/-- A date range with positive stride is strictly increasing. -/
lemma dateRange_pairwise (t0 t1 step : Int) (hs : 0 < step) :
    (dateRange t0 t1 step).Pairwise (· < ·) :=
  dateRangeAux_pairwise step t1 hs _ t0

/-- The remote-reference resolution of one timestamp, as _make_path performs
it: render the url template, strip "filecache::", resolve existence.  This is
the Resolved Location's remote component of spec section 3. -/
def resolvesAt (d : FsspecD) (fs : RemoteFS) (forceCheck : Bool) (t : Int) :
    Option String :=
  getRemotePathIfExists fs (strReplace (d.renderUrl t) "filecache::" "")
    "filecache::" forceCheck

/-- With storage options present and a non-empty rendered local path,
_make_path returns the resolved remote (possibly absent) and the rendered
local path. -/
lemma makePath_eq (d : FsspecD) (fs : RemoteFS) (t : Int) (ck : Bool)
    (hso : d.storageOptions = true) (hcr : d.cacheRender t ≠ "") :
    d.makePath fs t ck = .ok (resolvesAt d fs ck t, d.cacheRender t) := by
  unfold FsspecD.makePath resolvesAt
  simp [hso, hcr]

/-- The probe loop returns the first timestamp of a strictly increasing list
whose remote reference resolves under a forced check. -/
lemma probeFirst_eq_ok (d : FsspecD) (fs : RemoteFS) (tstar : Int)
    (hso : d.storageOptions = true) (hcr : ∀ t, d.cacheRender t ≠ "") :
    ∀ l : List Int, l.Pairwise (· < ·) → tstar ∈ l →
      (resolvesAt d fs true tstar).isSome = true →
      (∀ t ∈ l, t < tstar → resolvesAt d fs true t = none) →
      probeFirst d fs l = .ok tstar := by
  intro l
  induction l with
  | nil => intro _ h; simp at h
  | cons a rest ih =>
    intro hpw hmem hres hbefore
    rcases List.mem_cons.mp hmem with rfl | hmem'
    · obtain ⟨r, hr⟩ := Option.isSome_iff_exists.mp hres
      simp only [probeFirst, makePath_eq d fs tstar true hso (hcr tstar), hr]
    · have ha_lt : a < tstar := (List.pairwise_cons.mp hpw).1 tstar hmem'
      have hnone := hbefore a (List.mem_cons_self a rest) ha_lt
      simp only [probeFirst, makePath_eq d fs a true hso (hcr a), hnone]
      exact ih (List.pairwise_cons.mp hpw).2 hmem' hres
        (fun t ht hlt => hbefore t (List.mem_cons_of_mem a ht) hlt)

/-- The probe loop raises when no probed timestamp resolves. -/
lemma probeFirst_exhausted (d : FsspecD) (fs : RemoteFS)
    (hso : d.storageOptions = true) (hcr : ∀ t, d.cacheRender t ≠ "") :
    ∀ l : List Int, (∀ t ∈ l, resolvesAt d fs true t = none) →
      probeFirst d fs l =
        .error (.DataNotFoundError "No data found between t0 and t0 + dt") := by
  intro l
  induction l with
  | nil => intro _; rfl
  | cons a rest ih =>
    intro hnone
    simp only [probeFirst, makePath_eq d fs a true hso (hcr a),
      hnone a (List.mem_cons_self a rest)]
    exact ih (fun t ht => hnone t (List.mem_cons_of_mem a ht))

/-- C2: for a declared cadence freq strictly greater than one day, cadence
detection probes each calendar day in [t0, t0 + 2 * freq] in ascending order
with forced existence checks, takes the first day whose remote reference
resolves as the phase-aligned start, and the strided enumeration then runs
from that start to the request's end inclusive with step freq. -/
theorem C2_cadence_phase_detection (d : FsspecD) (fs : RemoteFS)
    (t0 t1 tstar fr : Int)
    (hfreq : d.time = some ⟨some fr⟩) (hgt : oneDay < fr)
    (hso : d.storageOptions = true) (hcr : ∀ t, d.cacheRender t ≠ "")
    (hmem : tstar ∈ dateRange t0 (t0 + fr * 2) oneDay)
    (hres : (resolvesAt d fs true tstar).isSome = true)
    (hfirst : ∀ t ∈ dateRange t0 (t0 + fr * 2) oneDay, t < tstar →
      resolvesAt d fs true t = none) :
    d.getT0ForStridedDates fs t0 = .ok tstar ∧
    d.makeTimesStrided fs t0 t1 = .ok (dateRange tstar t1 fr) := by
  have hpw : (dateRange t0 (t0 + fr * 2) oneDay).Pairwise (· < ·) :=
    dateRange_pairwise t0 (t0 + fr * 2) oneDay (by norm_num [oneDay])
  have h1 : d.getT0ForStridedDates fs t0 = .ok tstar := by
    simp only [FsspecD.getT0ForStridedDates, hfreq]
    exact probeFirst_eq_ok d fs tstar hso hcr _ hpw hmem hres hfirst
  refine ⟨h1, ?_⟩
  simp only [FsspecD.makeTimesStrided, hfreq, h1]
  rw [if_neg (by omega : ¬ fr < oneDay), if_neg (by omega : ¬ fr = oneDay)]

/-- C4: when no calendar day in the probe window [t0, t0 + 2 * freq]
resolves, cadence detection raises DataNotFoundError, and the error
propagates unchanged (no retry) out of the strided-times construction, hence
out of the whole download call. -/
theorem C4_probe_window_exhausted (d : FsspecD) (fs : RemoteFS)
    (t0 t1 fr : Int)
    (hfreq : d.time = some ⟨some fr⟩) (hgt : oneDay < fr)
    (hso : d.storageOptions = true) (hcr : ∀ t, d.cacheRender t ≠ "")
    (hnone : ∀ t ∈ dateRange t0 (t0 + fr * 2) oneDay,
      resolvesAt d fs true t = none) :
    d.getT0ForStridedDates fs t0 =
      .error (.DataNotFoundError "No data found between t0 and t0 + dt") ∧
    d.makeTimesStrided fs t0 t1 =
      .error (.DataNotFoundError "No data found between t0 and t0 + dt") := by
  have h1 : d.getT0ForStridedDates fs t0 =
      .error (.DataNotFoundError "No data found between t0 and t0 + dt") := by
    simp only [FsspecD.getT0ForStridedDates, hfreq]
    exact probeFirst_exhausted d fs hso hcr _ hnone
  refine ⟨h1, ?_⟩
  simp only [FsspecD.makeTimesStrided, hfreq, h1]
  rw [if_neg (by omega : ¬ fr < oneDay), if_neg (by omega : ¬ fr = oneDay)]

/-- A concrete remote filesystem for the cadence witnesses: exactly one file
exists, the day-3 product. -/
def fsCadence : RemoteFS :=
  { glob := fun _ => [], fsExists := fun s => s == "https://h/hit.nc" }

/-- A concrete Path-Template downloader with a declared 8-day cadence
(192 h); its url template renders the existing file only for day 3 (72 h). -/
def dCadence : FsspecD :=
  { url := "filecache::https://h/\x7bt:x\x7d.nc",
    renderUrl := fun t =>
      if t = 72 then "filecache::https://h/hit.nc" else "filecache::https://h/no.nc",
    storageOptions := true,
    cacheRender := fun _ => "/c/f.nc",
    time := some ⟨some 192⟩ }

/-- Witness for C2: with an 8-day cadence and data first present on day 3,
detection returns day 3 (72 h) and the enumeration is days 3, 11, 19:
[72, 264, 456] for an end bound inside day 19. -/
theorem C2_cadence_phase_detection_witness :
    dateRange 72 468 192 = [72, 264, 456] ∧
    dCadence.getT0ForStridedDates fsCadence 0 = .ok 72 ∧
    dCadence.makeTimesStrided fsCadence 0 468 = .ok (dateRange 72 468 192) := by
  refine ⟨by decide, ?_⟩
  exact C2_cadence_phase_detection dCadence fsCadence 0 468 72 192 rfl (by decide)
    rfl (fun t => by show "/c/f.nc" ≠ ""; decide) (by decide) (by decide) (by decide)

/-- A concrete remote filesystem on which nothing exists. -/
def fsEmpty : RemoteFS := { glob := fun _ => [], fsExists := fun _ => false }

/-- Witness for C4: with the same 8-day downloader but an empty remote,
cadence detection raises DataNotFoundError and the strided-times
construction propagates it. -/
theorem C4_probe_window_exhausted_witness :
    dCadence.getT0ForStridedDates fsEmpty 0 =
      .error (.DataNotFoundError "No data found between t0 and t0 + dt") ∧
    dCadence.makeTimesStrided fsEmpty 0 468 =
      .error (.DataNotFoundError "No data found between t0 and t0 + dt") :=
  C4_probe_window_exhausted dCadence fsEmpty 0 468 192 rfl (by decide)
    rfl (fun t => by show "/c/f.nc" ≠ ""; decide) (by decide)

/-- Association lookup in the insertion-ordered batch dict. -/
def lookupB (lp : String) : List (String × List String) → Option (List String)
  | [] => none
  | (k, v) :: rest => if k = lp then some v else lookupB lp rest

/-- The remote references destined for local path lp among the timestamps ts,
in timestamp order: present references whose rendered local path is lp. -/
def specRemotes (d : FsspecD) (fs : RemoteFS) (lp : String) (ts : List Int) :
    List String :=
  ts.filterMap (fun t => if d.cacheRender t = lp then resolvesAt d fs false t else none)

/-- How a group of remote references combines with an accumulator entry. -/
def combineAcc : Option (List String) → List String → Option (List String)
  | some g, s => some (g ++ s)
  | none, [] => none
  | none, s => some s

/-- Batch insertion appends the reference at the end of the key's group. -/
lemma lookupB_batchInsert_self (lp r : String) :
    ∀ b : List (String × List String),
      lookupB lp (batchInsert b lp r) = some ((lookupB lp b).getD [] ++ [r]) := by
  intro b
  induction b with
  | nil => simp [batchInsert, lookupB]
  | cons kv rest ih =>
    obtain ⟨k, v⟩ := kv
    by_cases hk : k = lp
    · subst hk
      simp [batchInsert, lookupB]
    · simp [batchInsert, lookupB, hk, ih]

/-- Batch insertion leaves every other key's group untouched. -/
lemma lookupB_batchInsert_ne (lp r lp' : String) (h : lp' ≠ lp) :
    ∀ b : List (String × List String),
      lookupB lp' (batchInsert b lp r) = lookupB lp' b := by
  intro b
  induction b with
  | nil => simp [batchInsert, lookupB, Ne.symm h]
  | cons kv rest ih =>
    obtain ⟨k, v⟩ := kv
    by_cases hk : k = lp
    · subst hk
      simp [batchInsert, lookupB, Ne.symm h]
    · by_cases hk' : k = lp'
      · subst hk'
        simp [batchInsert, lookupB, hk]
      · simp [batchInsert, lookupB, hk, hk', ih]

/-- The batch-building loop never raises under present storage options and
non-empty rendered local paths, and each group of the result is the
accumulator's group extended by the present remote references destined for
that local path, in timestamp order. -/
lemma batchLoop_spec (d : FsspecD) (fs : RemoteFS)
    (hso : d.storageOptions = true) (hcr : ∀ t, d.cacheRender t ≠ "") :
    ∀ (ts : List Int) (acc : List (String × List String)),
      ∃ b, batchLoop d fs ts acc = .ok b ∧
        ∀ lp, lookupB lp b = combineAcc (lookupB lp acc) (specRemotes d fs lp ts) := by
  intro ts
  induction ts with
  | nil =>
    intro acc
    refine ⟨acc, rfl, fun lp => ?_⟩
    cases h : lookupB lp acc <;> simp [combineAcc, specRemotes, h]
  | cons t ts ih =>
    intro acc
    cases hr : resolvesAt d fs false t with
    | some r =>
      obtain ⟨b, hb, hlook⟩ := ih (batchInsert acc (d.cacheRender t) r)
      refine ⟨b, ?_, ?_⟩
      · simp only [batchLoop, makePath_eq d fs t false hso (hcr t), hr]
        exact hb
      · intro lp
        rw [hlook lp]
        by_cases hlp : d.cacheRender t = lp
        · subst hlp
          rw [lookupB_batchInsert_self]
          have hhead : specRemotes d fs (d.cacheRender t) (t :: ts) =
              r :: specRemotes d fs (d.cacheRender t) ts := by
            simp [specRemotes, List.filterMap_cons, hr]
          rw [hhead]
          cases h : lookupB (d.cacheRender t) acc <;> simp [combineAcc, h]
        · rw [lookupB_batchInsert_ne _ _ _ (Ne.symm hlp)]
          have hhead : specRemotes d fs lp (t :: ts) = specRemotes d fs lp ts := by
            simp [specRemotes, List.filterMap_cons, hlp]
          rw [hhead]
    | none =>
      obtain ⟨b, hb, hlook⟩ := ih acc
      refine ⟨b, ?_, ?_⟩
      · simp only [batchLoop, makePath_eq d fs t false hso (hcr t), hr]
        exact hb
      · intro lp
        rw [hlook lp]
        have hhead : specRemotes d fs lp (t :: ts) = specRemotes d fs lp ts := by
          by_cases hlp : d.cacheRender t = lp
          · simp [specRemotes, List.filterMap_cons, hlp, hr]
          · simp [specRemotes, List.filterMap_cons, hlp]
        rw [hhead]

/-- The batch-building loop is blind to timestamps whose remote reference is
absent: it computes the same batch as on the filtered timestamp list. -/
lemma batchLoop_filter (d : FsspecD) (fs : RemoteFS)
    (hso : d.storageOptions = true) (hcr : ∀ t, d.cacheRender t ≠ "") :
    ∀ (ts : List Int) (acc : List (String × List String)),
      batchLoop d fs ts acc =
        batchLoop d fs (ts.filter (fun t => (resolvesAt d fs false t).isSome)) acc := by
  intro ts
  induction ts with
  | nil => intro acc; rfl
  | cons t ts ih =>
    intro acc
    cases hr : resolvesAt d fs false t with
    | some r =>
      rw [List.filter_cons_of_pos (by simp [hr])]
      simp only [batchLoop, makePath_eq d fs t false hso (hcr t), hr]
      exact ih (batchInsert acc (d.cacheRender t) r)
    | none =>
      rw [List.filter_cons_of_neg (by simp [hr])]
      simp only [batchLoop, makePath_eq d fs t false hso (hcr t), hr]
      exact ih acc

/-- C6: building a batch silently drops every timestamp whose remote
reference is absent (no error, the batch equals the one built from the
present timestamps only, and a local path with no present reference has no
entry), while present references are grouped by rendered local path, each
group an ordered tuple of the remote references in timestamp order, several
references possibly accumulating under one local path. -/
theorem C6_batch_grouping_and_gap_tolerance (d : FsspecD) (fs : RemoteFS)
    (ts : List Int)
    (hso : d.storageOptions = true) (hcr : ∀ t, d.cacheRender t ≠ "") :
    ∃ b, d.batchOfTimes fs ts = .ok b ∧
      d.batchOfTimes fs (ts.filter (fun t => (resolvesAt d fs false t).isSome)) = .ok b ∧
      ∀ lp, lookupB lp b =
        (if specRemotes d fs lp ts = [] then none else some (specRemotes d fs lp ts)) := by
  obtain ⟨b, hb, hlook⟩ := batchLoop_spec d fs hso hcr ts []
  refine ⟨b, hb, ?_, fun lp => ?_⟩
  · rw [FsspecD.batchOfTimes, ← batchLoop_filter d fs hso hcr ts []]
    exact hb
  · rw [hlook lp]
    show combineAcc none (specRemotes d fs lp ts) = _
    cases h : specRemotes d fs lp ts <;> simp [combineAcc]

/-- A concrete Path-Template downloader for the gap witness: day 1 (24 h)
renders a wildcard url that matches nothing on the remote (an archive gap);
days 0 and 2 share one local destination. -/
def dGap : FsspecD :=
  { url := "filecache::https://h/\x7bt:x\x7d.nc",
    renderUrl := fun t =>
      if t = 24 then "filecache::https://h/gap*.nc"
      else if t = 0 then "filecache::https://h/a.nc"
      else "filecache::https://h/b.nc",
    storageOptions := true,
    cacheRender := fun t => if t = 24 then "/c/g" else "/c/ab",
    time := some ⟨some 24⟩ }

/-- Witness for C6: the absent day-1 reference is dropped silently (no
"/c/g" entry at all), the two present references accumulate in timestamp
order under their shared local path. -/
theorem C6_batch_grouping_and_gap_tolerance_witness :
    dGap.batchOfTimes fsEmpty [0, 24, 48] =
      .ok [("/c/ab", ["filecache::https://h/a.nc", "filecache::https://h/b.nc"])] ∧
    (∃ b, dGap.batchOfTimes fsEmpty [0, 24, 48] = .ok b ∧
      dGap.batchOfTimes fsEmpty
        ([0, 24, 48].filter (fun t => (resolvesAt dGap fsEmpty false t).isSome)) = .ok b ∧
      ∀ lp, lookupB lp b =
        (if specRemotes dGap fsEmpty lp [0, 24, 48] = [] then none
         else some (specRemotes dGap fsEmpty lp [0, 24, 48]))) := by
  refine ⟨by decide, ?_⟩
  exact C6_batch_grouping_and_gap_tolerance dGap fsEmpty [0, 24, 48] rfl
    (fun t => by simp only [dGap]; split <;> decide)

/-- C10: _make_batch consults only the first and last element of an explicit
timestamp sequence (times[0] and times[-1]); the batch is rebuilt by
re-enumerating the closed range between them at the detected cadence, so any
two explicit sequences sharing first and last elements produce the same
batch, and the grouped timestamps are exactly the re-enumerated ones. -/
theorem C10_explicit_sequence_uses_only_endpoints (d : FsspecD) (fs : RemoteFS)
    (xs ys : List Int) (_hx : xs ≠ []) (_hy : ys ≠ [])
    (hh : xs.headD 0 = ys.headD 0) (hl : xs.getLastD 0 = ys.getLastD 0) :
    d.makeBatch fs xs = d.makeBatch fs ys ∧
    ∀ strided, d.makeTimesStrided fs (xs.headD 0) (xs.getLastD 0) = .ok strided →
      d.makeBatch fs xs = d.batchOfTimes fs strided := by
  constructor
  · unfold FsspecD.makeBatch
    rw [hh, hl]
  · intro strided hstr
    unfold FsspecD.makeBatch
    rw [hstr]

/-- A concrete Path-Template downloader with daily cadence and per-day
remotes and locals, for the endpoint witness. -/
def dDaily : FsspecD :=
  { url := "filecache::https://h/\x7bt:x\x7d.nc",
    renderUrl := fun t =>
      if t = 0 then "filecache::https://h/rA.nc"
      else if t = 7 then "filecache::https://h/rQ.nc"
      else if t = 24 then "filecache::https://h/rB.nc"
      else "filecache::https://h/rC.nc",
    storageOptions := true,
    cacheRender := fun t =>
      if t = 0 then "/c/d0" else if t = 24 then "/c/d1" else "/c/d2",
    time := some ⟨some 24⟩ }

/-- Witness for C10: the sequences [0, 48] and [0, 7, 48] (hours) produce
the same batch; the batch holds day 1 (24 h, in neither sequence) and holds
nothing rendered from the intermediate element 7 of the second sequence. -/
theorem C10_explicit_sequence_uses_only_endpoints_witness :
    dDaily.makeBatch fsEmpty [0, 48] = dDaily.makeBatch fsEmpty [0, 7, 48] ∧
    dDaily.makeBatch fsEmpty [0, 7, 48] =
      .ok [("/c/d0", ["filecache::https://h/rA.nc"]),
           ("/c/d1", ["filecache::https://h/rB.nc"]),
           ("/c/d2", ["filecache::https://h/rC.nc"])] := by
  refine ⟨?_, by decide⟩
  exact (C10_explicit_sequence_uses_only_endpoints dDaily fsEmpty [0, 48] [0, 7, 48]
    (by decide) (by decide) rfl rfl).1

/-- The local paths the caching collaborator reports are a pure function of
the remote references and the destination directory, independent of the
disk. -/
lemma openLocalModel_paths (cache : String) :
    ∀ (us disk : List String),
      (openLocalModel cache disk us).2.1 = us.map (openLocalName cache) := by
  intro us
  induction us with
  | nil => intro disk; rfl
  | cons u us ih =>
    intro disk
    by_cases h : openLocalName cache u ∈ disk
    · simp [openLocalModel, h, ih]
    · simp [openLocalModel, h, ih]

/-- The caching collaborator never removes a file from disk. -/
lemma openLocalModel_disk_mono (cache : String) :
    ∀ (us disk : List String) (p : String), p ∈ disk →
      p ∈ (openLocalModel cache disk us).1 := by
  intro us
  induction us with
  | nil => intro disk p hp; exact hp
  | cons u us ih =>
    intro disk p hp
    by_cases h : openLocalName cache u ∈ disk
    · simp only [openLocalModel, List.elem_eq_true_of_mem h, if_pos]
      exact ih disk p hp
    · have hc : disk.contains (openLocalName cache u) = false := by
        simpa using h
      simp only [openLocalModel, hc, Bool.false_eq_true, if_neg, not_false_iff]
      exact ih _ p (List.mem_cons_of_mem _ hp)

/-- After the caching collaborator runs, every reported local path exists. -/
lemma openLocalModel_paths_on_disk (cache : String) :
    ∀ (us disk : List String) (u : String), u ∈ us →
      openLocalName cache u ∈ (openLocalModel cache disk us).1 := by
  intro us
  induction us with
  | nil => intro disk u hu; simp at hu
  | cons u' us ih =>
    intro disk u hu
    rcases List.mem_cons.mp hu with rfl | hu'
    · by_cases h : openLocalName cache u ∈ disk
      · simp only [openLocalModel, List.elem_eq_true_of_mem h, if_pos]
        exact openLocalModel_disk_mono cache us disk _ h
      · have hc : disk.contains (openLocalName cache u) = false := by
          simpa using h
        simp only [openLocalModel, hc, Bool.false_eq_true, if_neg, not_false_iff]
        exact openLocalModel_disk_mono cache us _ _ (List.mem_cons_self _ _)
    · by_cases h : openLocalName cache u' ∈ disk
      · simp only [openLocalModel, List.elem_eq_true_of_mem h, if_pos]
        exact ih disk u hu'
      · have hc : disk.contains (openLocalName cache u') = false := by
          simpa using h
        simp only [openLocalModel, hc, Bool.false_eq_true, if_neg, not_false_iff]
        exact ih _ u hu'

/-- When every local copy already exists, the caching collaborator performs
zero transfers, reports the same paths, and leaves the disk unchanged. -/
lemma openLocalModel_all_cached (cache : String) :
    ∀ (us disk : List String), (∀ u ∈ us, openLocalName cache u ∈ disk) →
      openLocalModel cache disk us = (disk, us.map (openLocalName cache), 0) := by
  intro us
  induction us with
  | nil => intro disk _; rfl
  | cons u us ih =>
    intro disk hall
    have h : openLocalName cache u ∈ disk := hall u (List.mem_cons_self _ _)
    simp [openLocalModel, h, ih disk (fun v hv => hall v (List.mem_cons_of_mem _ hv))]

/-- The local paths a whole batch execution reports, in batch order. -/
def batchPaths (b : List (String × List String)) : List String :=
  (b.map (fun e => e.2.map (openLocalName e.1))).flatten

/-- The per-group loop reports exactly the batch's paths, independent of the
disk. -/
lemma downloadBatchesLoop_paths :
    ∀ (b : List (String × List String)) (disk : List String),
      (downloadBatchesLoop disk b).2.1 = batchPaths b := by
  intro b
  induction b with
  | nil => intro disk; rfl
  | cons e rest ih =>
    intro disk
    obtain ⟨lp, urls⟩ := e
    simp [downloadBatchesLoop, batchPaths, openLocalModel_paths, ih]

/-- The per-group loop never removes a file from disk. -/
lemma downloadBatchesLoop_disk_mono :
    ∀ (b : List (String × List String)) (disk : List String) (p : String),
      p ∈ disk → p ∈ (downloadBatchesLoop disk b).1 := by
  intro b
  induction b with
  | nil => intro disk p hp; exact hp
  | cons e rest ih =>
    intro disk p hp
    obtain ⟨lp, urls⟩ := e
    exact ih _ p (openLocalModel_disk_mono lp urls disk p hp)

/-- After the per-group loop runs, every path of the batch exists on disk. -/
lemma downloadBatchesLoop_paths_on_disk :
    ∀ (b : List (String × List String)) (disk : List String) (p : String),
      p ∈ batchPaths b → p ∈ (downloadBatchesLoop disk b).1 := by
  intro b
  induction b with
  | nil => intro disk p hp; simp [batchPaths] at hp
  | cons e rest ih =>
    intro disk p hp
    obtain ⟨lp, urls⟩ := e
    simp only [batchPaths, List.map_cons, List.flatten_cons, List.mem_append] at hp
    rcases hp with hp | hp
    · obtain ⟨u, hu, rfl⟩ := List.mem_map.mp hp
      exact downloadBatchesLoop_disk_mono rest _ _
        (openLocalModel_paths_on_disk lp urls disk u hu)
    · exact ih _ p hp

/-- When every path of the batch already exists on disk, the per-group loop
performs zero transfers, reports the batch's paths, and leaves the disk
unchanged. -/
lemma downloadBatchesLoop_all_cached :
    ∀ (b : List (String × List String)) (disk : List String),
      (∀ p ∈ batchPaths b, p ∈ disk) →
      downloadBatchesLoop disk b = (disk, batchPaths b, 0) := by
  intro b
  induction b with
  | nil => intro disk _; rfl
  | cons e rest ih =>
    intro disk hall
    obtain ⟨lp, urls⟩ := e
    have h1 : ∀ u ∈ urls, openLocalName lp u ∈ disk := by
      intro u hu
      refine hall _ ?_
      simp only [batchPaths, List.map_cons, List.flatten_cons, List.mem_append]
      exact Or.inl (List.mem_map.mpr ⟨u, hu, rfl⟩)
    have h2 : ∀ p ∈ batchPaths rest, p ∈ disk := by
      intro p hp
      refine hall p ?_
      simp only [batchPaths, List.map_cons, List.flatten_cons, List.mem_append]
      exact Or.inr hp
    simp [downloadBatchesLoop, openLocalModel_all_cached lp urls disk h1, ih disk h2,
      batchPaths]

/-- The nearest-neighbour fold stays within the candidates. -/
lemma selNearest_fold_mem (t : Int) :
    ∀ (xs : List Int) (x : Int),
      xs.foldl (fun best y =>
        if (y - t).natAbs ≤ (best - t).natAbs then y else best) x ∈ x :: xs := by
  intro xs
  induction xs with
  | nil => intro x; simp
  | cons y xs ih =>
    intro x
    have h := ih (if (y - t).natAbs ≤ (x - t).natAbs then y else x)
    rcases List.mem_cons.mp h with he | hm
    · rw [List.foldl_cons, he]
      by_cases hc : (y - t).natAbs ≤ (x - t).natAbs
      · simp [hc]
      · simp [hc]
    · simp only [List.foldl_cons]
      exact List.mem_cons_of_mem _ (List.mem_cons_of_mem _ hm)

/-- The nearest-neighbour fold minimizes the distance to the target. -/
lemma selNearest_fold_min (t : Int) :
    ∀ (xs : List Int) (x : Int),
      ((xs.foldl (fun best y =>
          if (y - t).natAbs ≤ (best - t).natAbs then y else best) x) - t).natAbs
        ≤ (x - t).natAbs ∧
      ∀ s ∈ xs,
        ((xs.foldl (fun best y =>
            if (y - t).natAbs ≤ (best - t).natAbs then y else best) x) - t).natAbs
          ≤ (s - t).natAbs := by
  intro xs
  induction xs with
  | nil => intro x; exact ⟨le_refl _, by simp⟩
  | cons y xs ih =>
    intro x
    obtain ⟨h1, h2⟩ := ih (if (y - t).natAbs ≤ (x - t).natAbs then y else x)
    have hx : ((if (y - t).natAbs ≤ (x - t).natAbs then y else x) - t).natAbs
        ≤ (x - t).natAbs := by
      by_cases hc : (y - t).natAbs ≤ (x - t).natAbs
      · simp [hc]
      · simp [hc]
    have hy : ((if (y - t).natAbs ≤ (x - t).natAbs then y else x) - t).natAbs
        ≤ (y - t).natAbs := by
      by_cases hc : (y - t).natAbs ≤ (x - t).natAbs
      · simp [hc]
      · simp [hc]; omega
    refine ⟨le_trans h1 hx, fun s hs => ?_⟩
    rcases List.mem_cons.mp hs with rfl | hm
    · exact le_trans h1 hy
    · exact h2 s hm

/-- A successful nearest-neighbour selection picks an axis sample. -/
lemma selNearest_mem (t b : Int) :
    ∀ axis : List Int, selNearest t axis = some b → b ∈ axis := by
  intro axis h
  cases axis with
  | nil => simp [selNearest] at h
  | cons x xs =>
    simp only [selNearest, Option.some_inj] at h
    rw [← h]
    exact selNearest_fold_mem t xs x

/-- A successful nearest-neighbour selection minimizes the distance to the
requested timestamp over the whole axis. -/
lemma selNearest_min (t b : Int) :
    ∀ axis : List Int, selNearest t axis = some b →
      ∀ s ∈ axis, (b - t).natAbs ≤ (s - t).natAbs := by
  intro axis h
  cases axis with
  | nil => simp [selNearest] at h
  | cons x xs =>
    simp only [selNearest, Option.some_inj] at h
    intro s hs
    rw [← h]
    obtain ⟨h1, h2⟩ := selNearest_fold_min t xs x
    rcases List.mem_cons.mp hs with rfl | hm
    · exact h1
    · exact h2 s hm

/-- One _download_single_timestep call under valid configuration: the local
path is rendered from the selected timestamp; it is skipped exactly when it
already exists (the _previous_fname guard never fires, having just been
reset to the empty string), otherwise materialized once. -/
lemma downloadSingleTimestep_eq (d : XarrayD) (axis : List Int) (st : XState)
    (t tOut : Int) (hv : d.varNames ≠ []) (hsel : selNearest t axis = some tOut)
    (hso : d.hasStorageOptions = true) (hcr : d.cacheRender tOut ≠ "") :
    d.downloadSingleTimestep axis st t =
      (if d.cacheRender tOut ∈ st.disk then
        .ok ({ disk := st.disk, prev := d.cacheRender tOut, writes := st.writes },
             d.cacheRender tOut)
      else
        .ok ({ disk := d.cacheRender tOut :: st.disk, prev := d.cacheRender tOut,
               writes := st.writes + 1 }, d.cacheRender tOut)) := by
  have hve : d.varNames.isEmpty = false := by
    cases h : d.varNames with
    | nil => exact absurd h hv
    | cons a l => rfl
  by_cases hc : d.cacheRender tOut ∈ st.disk
  · simp [XarrayD.downloadSingleTimestep, hve, hsel, hso, hcr, hc]
  · simp [XarrayD.downloadSingleTimestep, hve, hsel, hso, hcr, hc]

/-- Calling the Dataset-Slice download twice on one timestamp: the same path
both times, and the second call leaves the state — disk, previous
destination, write count — untouched. -/
lemma downloadX_twice (d : XarrayD) (axis : List Int) (st : XState) (t tOut : Int)
    (hv : d.varNames ≠ []) (hsel : selNearest t axis = some tOut)
    (hso : d.hasStorageOptions = true) (hcr : d.cacheRender tOut ≠ "") :
    ∃ st1, d.download axis st [t] = .ok (st1, [d.cacheRender tOut]) ∧
           d.download axis st1 [t] = .ok (st1, [d.cacheRender tOut]) := by
  by_cases hc : d.cacheRender tOut ∈ st.disk
  · refine ⟨XState.mk st.disk (d.cacheRender tOut) st.writes, ?_, ?_⟩
    · simp [XarrayD.download, downloadSingleTimestep_eq d axis st t tOut hv hsel hso hcr, hc]
    · simp [XarrayD.download,
        downloadSingleTimestep_eq d axis _ t tOut hv hsel hso hcr, hc]
  · refine ⟨XState.mk (d.cacheRender tOut :: st.disk) (d.cacheRender tOut)
        (st.writes + 1), ?_, ?_⟩
    · simp [XarrayD.download, downloadSingleTimestep_eq d axis st t tOut hv hsel hso hcr, hc]
    · simp [XarrayD.download,
        downloadSingleTimestep_eq d axis _ t tOut hv hsel hso hcr]

/-- The Path-Template download twice over the same times: the batch is
recomputed identically, the first call materializes every batch path, and
the second call reports the same paths with zero transfers and an unchanged
disk. -/
lemma fsspecDownload_twice (d : FsspecD) (fs : RemoteFS) (disk0 : List String)
    (times : List Int) (b : List (String × List String))
    (hb : d.makeBatch fs times = .ok b) (hso : d.storageOptions = true) :
    ∃ disk1 n1, d.download fs disk0 times = .ok (disk1, batchPaths b, n1) ∧
                d.download fs disk1 times = .ok (disk1, batchPaths b, 0) := by
  refine ⟨(downloadBatchesLoop disk0 b).1, (downloadBatchesLoop disk0 b).2.2, ?_, ?_⟩
  · unfold FsspecD.download
    rw [hb]
    show d.downloadBatches disk0 b = _
    unfold FsspecD.downloadBatches
    rw [hso, if_neg (by decide : ¬ (true = false))]
    exact congrArg Except.ok (by rw [← downloadBatchesLoop_paths b disk0])
  · unfold FsspecD.download
    rw [hb]
    show d.downloadBatches (downloadBatchesLoop disk0 b).1 b = _
    unfold FsspecD.downloadBatches
    rw [hso, if_neg (by decide : ¬ (true = false))]
    rw [downloadBatchesLoop_all_cached b (downloadBatchesLoop disk0 b).1
      (fun p hp => downloadBatchesLoop_paths_on_disk b disk0 p hp)]

/-- C5: download is idempotent by path for both strategies — repeating a
download yields the same local paths and the second run performs no
materialization or transfer and overwrites nothing (disk unchanged). -/
theorem C5_download_idempotent_by_path :
    (∀ (d : XarrayD) (axis : List Int) (st : XState) (t tOut : Int),
      d.varNames ≠ [] → selNearest t axis = some tOut →
      d.hasStorageOptions = true → d.cacheRender tOut ≠ "" →
      ∃ st1, d.download axis st [t] = .ok (st1, [d.cacheRender tOut]) ∧
             d.download axis st1 [t] = .ok (st1, [d.cacheRender tOut])) ∧
    (∀ (d : FsspecD) (fs : RemoteFS) (disk0 : List String) (times : List Int)
        (b : List (String × List String)),
      d.makeBatch fs times = .ok b → d.storageOptions = true →
      ∃ disk1 n1, d.download fs disk0 times = .ok (disk1, batchPaths b, n1) ∧
                  d.download fs disk1 times = .ok (disk1, batchPaths b, 0)) :=
  ⟨fun d axis st t tOut hv hsel hso hcr =>
      downloadX_twice d axis st t tOut hv hsel hso hcr,
   fun d fs disk0 times b hb hso =>
      fsspecDownload_twice d fs disk0 times b hb hso⟩

/-- A concrete Dataset-Slice downloader whose dataset is sampled only at
12:00 of 2000-01-01 (axis [12] in hours); the cache template renders a
distinct path per sample. -/
def dSlice : XarrayD :=
  { opener := .pydap, url := "https://thredds.h/ds", hasStorageOptions := true,
    cacheRender := fun s => if s = 12 then "/c/t12.nc" else "/c/other.nc",
    varNames := ["chl"] }

/-- C1: requesting the same timestamp twice in one download call — both
requests select the same nearest sample (12 h) — materializes the slice
exactly ONCE: the second request is skipped because the file exists and the
_previous_fname guard, reset to the empty string at the start of every
call, can never force re-materialization.  The claim (and spec section 4.6)
demand a second materialization here; the code performs one. -/
theorem C1_forced_rematerialization_never_fires :
    dSlice.download [12] (XState.mk [] "" 0) [0, 0] =
      .ok (XState.mk ["/c/t12.nc"] "/c/t12.nc" 1, ["/c/t12.nc", "/c/t12.nc"]) := by
  decide

/-- Witness for C5, both strategies at concrete inputs: the Dataset-Slice
fetcher downloads timestamp 0 twice for one path each time and a single
write; the Path-Template fetcher downloads day 0 twice, second run with zero
transfers. -/
theorem C5_download_idempotent_by_path_witness :
    (∃ st1, dSlice.download [12] (XState.mk [] "" 0) [0] = .ok (st1, [dSlice.cacheRender 12]) ∧
            dSlice.download [12] st1 [0] = .ok (st1, [dSlice.cacheRender 12])) ∧
    (∃ disk1 n1,
      dDaily.download fsEmpty [] [0] =
        .ok (disk1, batchPaths [("/c/d0", ["filecache::https://h/rA.nc"])], n1) ∧
      dDaily.download fsEmpty disk1 [0] =
        .ok (disk1, batchPaths [("/c/d0", ["filecache::https://h/rA.nc"])], 0)) := by
  constructor
  · exact C5_download_idempotent_by_path.1 dSlice [12] (XState.mk [] "" 0) 0 12
      (by decide) rfl rfl (by decide)
  · exact C5_download_idempotent_by_path.2 dDaily fsEmpty [] [0]
      [("/c/d0", ["filecache::https://h/rA.nc"])] (by decide) rfl

/-- C8: the Dataset-Slice fetcher selects the nearest available sample along
the time axis (it belongs to the axis and minimizes the absolute distance to
the request) and renders the local file path from the actual selected
timestamp, returning exactly that path. -/
theorem C8_nearest_sample_renders_actual_timestamp (d : XarrayD)
    (axis : List Int) (st : XState) (t : Int)
    (hv : d.varNames ≠ []) (hax : axis ≠ [])
    (hso : d.hasStorageOptions = true) (hcr : ∀ s, d.cacheRender s ≠ "") :
    ∃ tOut st1, selNearest t axis = some tOut ∧ tOut ∈ axis ∧
      (∀ s ∈ axis, (tOut - t).natAbs ≤ (s - t).natAbs) ∧
      d.downloadSingleTimestep axis st t = .ok (st1, d.cacheRender tOut) := by
  obtain ⟨x, xs, rfl⟩ : ∃ x xs, axis = x :: xs := by
    cases axis with
    | nil => exact absurd rfl hax
    | cons x xs => exact ⟨x, xs, rfl⟩
  have hsel : selNearest t (x :: xs) =
      some (xs.foldl (fun best y =>
        if (y - t).natAbs ≤ (best - t).natAbs then y else best) x) := rfl
  have heq := downloadSingleTimestep_eq d (x :: xs) st t _ hv hsel hso (hcr _)
  by_cases hc : d.cacheRender (xs.foldl (fun best y =>
      if (y - t).natAbs ≤ (best - t).natAbs then y else best) x) ∈ st.disk
  · rw [if_pos hc] at heq
    exact ⟨_, _, hsel, selNearest_mem t _ _ hsel, selNearest_min t _ _ hsel, heq⟩
  · rw [if_neg hc] at heq
    exact ⟨_, _, hsel, selNearest_mem t _ _ hsel, selNearest_min t _ _ hsel, heq⟩

/-- Witness for C8: requesting 2000-01-01T00:00 (0 h) against a dataset
sampled only at 2000-01-01T12:00 (12 h) materializes the path rendered with
12:00, not the requested time. -/
theorem C8_nearest_sample_renders_actual_timestamp_witness :
    dSlice.cacheRender 12 = "/c/t12.nc" ∧
    dSlice.cacheRender 0 ≠ "/c/t12.nc" ∧
    dSlice.downloadSingleTimestep [12] (XState.mk [] "" 0) 0 =
      .ok (XState.mk ["/c/t12.nc"] "/c/t12.nc" 1, "/c/t12.nc") ∧
    (∃ tOut st1, selNearest 0 [(12 : Int)] = some tOut ∧ tOut ∈ [(12 : Int)] ∧
      (∀ s ∈ [(12 : Int)], (tOut - 0).natAbs ≤ (s - 0).natAbs) ∧
      dSlice.downloadSingleTimestep [12] (XState.mk [] "" 0) 0 =
        .ok (st1, dSlice.cacheRender tOut)) := by
  refine ⟨by decide, by decide, by decide, ?_⟩
  exact C8_nearest_sample_renders_actual_timestamp dSlice [12] (XState.mk [] "" 0) 0
    (by decide) (by decide) rfl (fun s => by simp only [dSlice]; split <;> decide)

/-- C7: existence resolution of a rendered remote path — a wildcard path is
expanded with glob and the first returned match taken with the prefix
(absent on no match); without a wildcard a forced check probes explicitly
and returns absent on failure; otherwise the path is returned as present
without any probe. -/
theorem C7_existence_resolution (fs : RemoteFS) (url pfx : String) (fc : Bool) :
    (url.toList.contains '*' = true →
      getRemotePathIfExists fs url pfx fc =
        (match fs.glob url with
         | [] => none
         | f :: _ => some (pfx ++ f))) ∧
    (url.toList.contains '*' = false → fc = true →
      getRemotePathIfExists fs url pfx fc =
        (if fs.fsExists url then some (pfx ++ url) else none)) ∧
    (url.toList.contains '*' = false → fc = false →
      getRemotePathIfExists fs url pfx fc = some (pfx ++ url)) := by
  refine ⟨fun h => ?_, fun h hf => ?_, fun h hf => ?_⟩
  · have hm : '*' ∈ url.data := by simpa using h
    simp [getRemotePathIfExists, hm]
  · have hm : '*' ∉ url.data := by simpa using h
    simp [getRemotePathIfExists, hm, hf]
  · have hm : '*' ∉ url.data := by simpa using h
    simp [getRemotePathIfExists, hm, hf]

/-- A concrete remote filesystem for the existence-resolution witness. -/
def fsSeven : RemoteFS :=
  { glob := fun u => if u = "g*" then ["m1", "m2"] else [],
    fsExists := fun u => u == "E" }

/-- Witness for C7, all three branches at concrete inputs: wildcard with
matches takes the first match prefixed; wildcard without matches is absent;
forced check follows the probe; no wildcard and no forced check is assumed
present. -/
theorem C7_existence_resolution_witness :
    getRemotePathIfExists fsSeven "g*" "filecache::" false = some "filecache::m1" ∧
    getRemotePathIfExists fsSeven "n*" "filecache::" true = none ∧
    getRemotePathIfExists fsSeven "E" "filecache::" true = some "filecache::E" ∧
    getRemotePathIfExists fsSeven "F" "filecache::" true = none ∧
    getRemotePathIfExists fsSeven "F" "filecache::" false = some "filecache::F" := by
  refine ⟨?_, ?_, ?_, ?_, ?_⟩
  · rw [(C7_existence_resolution fsSeven "g*" "filecache::" false).1 (by decide)]
    decide
  · rw [(C7_existence_resolution fsSeven "n*" "filecache::" true).1 (by decide)]
    decide
  · rw [(C7_existence_resolution fsSeven "E" "filecache::" true).2.1 (by decide) rfl]
    decide
  · rw [(C7_existence_resolution fsSeven "F" "filecache::" true).2.1 (by decide) rfl]
    decide
  · exact (C7_existence_resolution fsSeven "F" "filecache::" false).2.2 (by decide) rfl

/-- A source descriptor with a valid Path-Template url whose cache-storage
template renders the SAME string for every day. -/
def cfgCollide : Config :=
  { hasUrl := true,
    url := "filecache::https://h/\x7bt:%Y%m%d\x7d.nc",
    renderUrl := fun _ => "filecache::https://h/20000101.nc",
    hasStorageOptions := true,
    cacheRaw := "/c/static.nc",
    cacheRender := fun _ => "/c/static.nc",
    time := some ⟨some 24⟩,
    varNames := [] }

/-- Counterexample to C3 as stated: this descriptor's cache-storage template
renders one and the same string for all nine probe days, yet constructing
the Path-Template downloader (DownloaderFsspec, both directly and through
make_downloader) succeeds — no ConfigurationError is raised at construction,
so the day-uniqueness validation does NOT apply to both fetch strategies. -/
theorem C3_counterexample_fsspec_accepts_colliding_template :
    ((nineDays.map cfgCollide.cacheRender).dedup.length ≠ nineDays.length) ∧
    exceptIsOk (mkDownloaderFsspec cfgCollide) = true ∧
    exceptIsOk (make_downloader cfgCollide) = true := by
  decide

/-- C3 as amended: the construction-time nine-day uniqueness validation
applies to the Dataset-Slice fetcher only — DownloaderXarray construction
raises ConfigurationError whenever the nine probe-day renders are not nine
distinct strings, while DownloaderFsspec construction validates only the url
grammar and accepts any cache-storage template. -/
theorem C3_day_uniqueness_dataset_slice_only :
    (∀ (cfg : Config) (ok : OpenerKind),
      cfg.hasStorageOptions = true → cfg.cacheRaw ≠ "" →
      containsSub cfg.cacheRaw "\x7bt:" = true →
      (nineDays.map cfg.cacheRender).dedup.length ≠ nineDays.length →
      mkDownloaderXarray ok cfg = .error (.ConfigurationError
        "storage_options.cache_storage must return a unique file for each day")) ∧
    (∀ cfg : Config, checkUrlValid cfg.url = .ok () →
      exceptIsOk (mkDownloaderFsspec cfg) = true) := by
  constructor
  · intro cfg ok hso hraw hph hdup
    unfold mkDownloaderXarray checkCacheStoragePathValid
    simp [hso, hraw, hph, hdup]
  · intro cfg h
    unfold mkDownloaderFsspec
    rw [h]
    rfl

/-- A source descriptor whose cache template contains the placeholder but
still renders the same string for every day. -/
def cfgCollideT : Config :=
  { cfgCollide with cacheRaw := "/c/\x7bt:%Y\x7d.nc" }

/-- Witness for the amended C3: the Dataset-Slice construction rejects the
day-colliding template with ConfigurationError; the Path-Template
construction accepts the very same descriptor. -/
theorem C3_day_uniqueness_dataset_slice_only_witness :
    mkDownloaderXarray .pydap cfgCollideT = .error (.ConfigurationError
      "storage_options.cache_storage must return a unique file for each day") ∧
    exceptIsOk (mkDownloaderFsspec cfgCollideT) = true := by
  constructor
  · exact C3_day_uniqueness_dataset_slice_only.1 cfgCollideT .pydap rfl
      (by decide) (by decide) (by decide)
  · exact C3_day_uniqueness_dataset_slice_only.2 cfgCollideT (by decide)

/-- C9: make_downloader dispatches on the url in priority order — the
filecache grammar selects the Path-Template fetcher; otherwise a url
containing the thredds marker selects the Dataset-Slice fetcher with the
pydap opener; otherwise a url with no path separator selects the
Dataset-Slice fetcher with the CMEMS opener; a url matching none of these
raises (TypeError in the source, ConfigurationError of the spec taxonomy). -/
theorem C9_strategy_dispatch_priority (cfg : Config)
    (hu : cfg.hasUrl = true) (hs : cfg.hasStorageOptions = true) :
    (urlPatternMatch cfg.url = true →
      make_downloader cfg = Except.map Downloader.fsspec (mkDownloaderFsspec cfg)) ∧
    (urlPatternMatch cfg.url = false → containsSub cfg.url "thredds" = true →
      make_downloader cfg =
        Except.map (Downloader.xarray .pydap) (mkDownloaderXarray .pydap cfg)) ∧
    (urlPatternMatch cfg.url = false → containsSub cfg.url "thredds" = false →
      cfg.url.toList.contains '/' = false →
      make_downloader cfg =
        Except.map (Downloader.xarray .cmems) (mkDownloaderXarray .cmems cfg)) ∧
    (urlPatternMatch cfg.url = false → containsSub cfg.url "thredds" = false →
      cfg.url.toList.contains '/' = true →
      make_downloader cfg = .error (.ConfigurationError
        "URL is not compatible with any known downloader")) := by
  refine ⟨fun hm => ?_, fun hm ht => ?_, fun hm ht hc => ?_, fun hm ht hc => ?_⟩
  · unfold make_downloader
    simp only [hu, hs, hm]
    cases h : mkDownloaderFsspec cfg <;> simp [h, Except.map]
  · unfold make_downloader
    simp only [hu, hs, hm, ht]
    cases h : mkDownloaderXarray .pydap cfg <;> simp [h, Except.map]
  · unfold make_downloader
    simp only [hu, hs, hm, ht, hc]
    cases h : mkDownloaderXarray .cmems cfg <;> simp [h, Except.map]
  · unfold make_downloader
    simp only [hu, hs, hm, ht, hc]
    simp

/-- A descriptor whose url matches the filecache grammar. -/
def cfgDispatchA : Config :=
  { hasUrl := true, url := "filecache::https://host/\x7bt:%Y%m%d\x7d.nc",
    renderUrl := fun _ => "filecache::https://host/20000101.nc",
    hasStorageOptions := true, cacheRaw := "/c/\x7bt:%Y\x7d.nc",
    cacheRender := fun _ => "/c/x", time := some ⟨some 24⟩, varNames := [] }

/-- A descriptor with a thredds catalog url. -/
def cfgDispatchB : Config :=
  { cfgDispatchA with url := "https://thredds.host/dodsC/ds" }

/-- A descriptor whose url is an opaque CMEMS dataset id (no separator). -/
def cfgDispatchC : Config :=
  { cfgDispatchA with url := "cmems_mod_glo_bgc_my_0.25deg_P1D-m" }

/-- A descriptor whose url matches none of the dispatch rules. -/
def cfgDispatchD : Config :=
  { cfgDispatchA with url := "https://plain.host/x.nc" }

/-- Witness for C9: the four dispatch branches at concrete urls, in priority
order. -/
theorem C9_strategy_dispatch_priority_witness :
    make_downloader cfgDispatchA =
      Except.map Downloader.fsspec (mkDownloaderFsspec cfgDispatchA) ∧
    make_downloader cfgDispatchB =
      Except.map (Downloader.xarray .pydap) (mkDownloaderXarray .pydap cfgDispatchB) ∧
    make_downloader cfgDispatchC =
      Except.map (Downloader.xarray .cmems) (mkDownloaderXarray .cmems cfgDispatchC) ∧
    make_downloader cfgDispatchD = .error (.ConfigurationError
      "URL is not compatible with any known downloader") := by
  refine ⟨?_, ?_, ?_, ?_⟩
  · exact (C9_strategy_dispatch_priority cfgDispatchA rfl rfl).1 (by decide)
  · exact (C9_strategy_dispatch_priority cfgDispatchB rfl rfl).2.1 (by decide) (by decide)
  · exact (C9_strategy_dispatch_priority cfgDispatchC rfl rfl).2.2.1 (by decide)
      (by decide) (by decide)
  · exact (C9_strategy_dispatch_priority cfgDispatchD rfl rfl).2.2.2 (by decide)
      (by decide) (by decide)
